import Mathlib

/-!
Verification of the per-project orchestration pipeline of the atom
differential-testing harness (`main.py`, `projectProcess.py`).

The Python source is shallowly embedded: every stateful procedure becomes a
pure Lean function over an explicit environment that records the outcome of
each external effect (host commands, the container runtime API, the tar
stream), and returns the data the procedure would have produced together with
a trace of the observable actions it performed.  Machine integers do not
occur (all counters are small non-negative values); exit codes are `Int`
because the code uses `-1` as a synthetic failure marker.
-/

/-! ## Basic path / filesystem model

Host paths are lists of components (`pathlib.Path` segments).  The host
filesystem is a finite association of file paths to byte contents (modelled
as `String`) plus a list of directories. -/

/-- Python truthiness of an optional string (`.get` returning `None`, or an
empty string, is falsy). -/
def optTruthy : Option String → Option String
  | some s => if s = "" then none else some s
  | none => none

/-- `os.path.basename` for a slash-separated container path: the characters
after the last slash. -/
def osBasename (s : String) : String :=
  String.mk ((s.data.reverse.takeWhile (fun c => c != '/')).reverse)

/-- Whether `pathlib.Path(name).suffix` is non-empty: there is a dot in the
final component past its first character (`"bom.json"` has a suffix,
`"bom"` and `".hidden"` do not). -/
def pyHasSuffix (s : String) : Bool :=
  (s.data.drop 1).contains '.'

/-- Last component of a host path (`pathlib.Path.name`). -/
def lastComp (p : List String) : String :=
  p.getLastD ""

/-- Host filesystem: files (path to contents, first match wins) and
directories. -/
structure FS where
  files : List (List String × String)
  dirs : List (List String)

def emptyFS : FS := ⟨[], []⟩

def getFile (fs : FS) (p : List String) : Option String :=
  (fs.files.find? (fun e => e.1 == p)).map (·.2)

def isFile (fs : FS) (p : List String) : Bool :=
  (getFile fs p).isSome

def setFile (fs : FS) (p : List String) (c : String) : FS :=
  ⟨(p, c) :: fs.files.filter (fun e => !(e.1 == p)), fs.dirs⟩

def removeFile (fs : FS) (p : List String) : FS :=
  ⟨fs.files.filter (fun e => !(e.1 == p)), fs.dirs⟩

def hasDir (fs : FS) (p : List String) : Bool :=
  fs.dirs.contains p

/-- All non-empty leading runs of a path, used for `mkdir(parents=True)`. -/
def ancestors (p : List String) : List (List String) :=
  (List.range p.length).map (fun i => p.take (i + 1))

/-- `Path.mkdir(parents=True, exist_ok=True)`: register the directory and
every directory above it. -/
def mkdirParents (fs : FS) (p : List String) : FS :=
  ⟨fs.files, ancestors p ++ fs.dirs⟩

def existsPath (fs : FS) (p : List String) : Bool :=
  isFile fs p || hasDir fs p

/-- `shutil.move` / `os.rename` of a regular file (the only use in the
source); a no-op when the source file does not exist. -/
def movePath (fs : FS) (src dst : List String) : FS :=
  match getFile fs src with
  | some c => setFile (removeFile fs src) dst c
  | none => fs

/-! ## ContainerSession naming (`projectProcess.py` line 55)

`container_name = f"atom_processor_{lang.lower()}_{name.lower()}_{int(time.time())}"`.
`time.time()` has sub-second resolution; `int` truncates to whole seconds.
Creation time is modelled in milliseconds, so the truncation
`int(time.time())` becomes division by 1000. -/

def containerName (projectLang projectName : String) (creationTimeMs : Nat) : String :=
  "atom_processor_" ++ projectLang.toLower ++ "_" ++ projectName.toLower ++ "_"
    ++ toString (creationTimeMs / 1000)

/-- Value of a decimal digit character. -/
def decDigitVal (c : Char) : Nat := c.toNat - 48

/-- Decode a decimal digit string back to the number it denotes. -/
def decodeDecimal (cs : List Char) : Nat :=
  cs.foldl (fun acc c => acc * 10 + decDigitVal c) 0

/-! ## ConfigModel (`ProjectProcessor._load_config`, lines 60-86)

The parsed JSON file is a structured value; `none` as the loader input
stands for the two caught exceptions (`FileNotFoundError`,
`json.JSONDecodeError`): an unreadable file or one that is not valid JSON. -/

/-- A JSON value as produced by `json.load`. -/
inductive JVal where
  | jnull
  | jbool (b : Bool)
  | jnum (n : Int)
  | jstr (s : String)
  | jarr (xs : List JVal)
  | jobj (kvs : List (String × JVal))

/-- Python truthiness of a JSON value. -/
def pyTruthy : JVal → Bool
  | .jnull => false
  | .jbool b => b
  | .jnum n => n != 0
  | .jstr s => s != ""
  | .jarr xs => !xs.isEmpty
  | .jobj kvs => !kvs.isEmpty

/-- Truthiness of `dict.get(key)` (absent key yields `None`, which is falsy). -/
def pyTruthyOpt : Option JVal → Bool
  | none => false
  | some v => pyTruthy v

/-- `dict` lookup over the top-level mapping of the config file. -/
def lookupKey (kvs : List (String × JVal)) (k : String) : Option JVal :=
  (kvs.find? (fun kv => kv.1 == k)).map (·.2)

/-- `dict` assignment: replace the value at `k` in place, appending if the
key is new. -/
def setKeyVal : List (String × JVal) → String → JVal → List (String × JVal)
  | [], k, v => [(k, v)]
  | (k0, v0) :: rest, k, v =>
    if k0 = k then (k, v) :: rest else (k0, v0) :: setKeyVal rest k v

def isJArr : JVal → Bool
  | .jarr _ => true
  | _ => false

/-- `ProjectProcessor._load_config`: validates `github_url` and `language`
(Python truthiness), overwrites `language` with the directory-derived value,
then requires `atom_operations` to be present and a list
(`isinstance(..., list)`; emptiness is not checked).  A `none` result is the
`return None` failure path. -/
def loadConfig (input : Option (List (String × JVal))) (dirLang : String) :
    Option (List (String × JVal)) :=
  match input with
  | none => none
  | some cfg =>
    if !pyTruthyOpt (lookupKey cfg "github_url")
        || !pyTruthyOpt (lookupKey cfg "language") then
      none
    else
      -- a language mismatch with `dirLang` is only logged; the directory wins
      match lookupKey (setKeyVal cfg "language" (JVal.jstr dirLang)) "atom_operations" with
      | none => none
      | some v => if isJArr v then some (setKeyVal cfg "language" (JVal.jstr dirLang)) else none

/-! ## RepositorySource (`ProjectProcessor._clone_repo`, lines 104-125) -/

/-- The clone destination directory as seen on disk. -/
structure CloneDest where
  onDisk : Bool
  populated : Bool
deriving DecidableEq

structure CloneConfig where
  host_pre_clone_commands : List String
  host_post_clone_commands : List String

/-- Outcomes of the host commands the acquisition step runs. -/
structure CloneOracle where
  hostCmdOk : String → Bool
  gitCloneOk : Bool

structure CloneOutcome where
  ok : Bool
  dest : CloneDest
  cloneRuns : Nat
  hostCmdRuns : Nat
deriving DecidableEq

/-- Run a command sequence, stopping at the first failure; returns overall
success and how many commands were started. -/
def runCmdSeq (ok : String → Bool) : List String → Bool × Nat
  | [] => (true, 0)
  | c :: cs =>
    if ok c then
      let r := runCmdSeq ok cs
      (r.1, r.2 + 1)
    else (false, 1)

/-- `ProjectProcessor._clone_repo`: skips everything and reports success when
the destination path exists (`self.project_clone_path.exists()` - emptiness
is not consulted); otherwise creates the directory, runs pre-clone host
commands, clones, and runs post-clone host commands, aborting on the first
failure. -/
def cloneRepo (cfg : CloneConfig) (o : CloneOracle) (dest : CloneDest) : CloneOutcome :=
  if dest.onDisk then ⟨true, dest, 0, 0⟩
  else
    -- `self.project_clone_path.mkdir(parents=True, exist_ok=True)`
    let destMk : CloneDest := ⟨true, false⟩
    let pre := runCmdSeq o.hostCmdOk cfg.host_pre_clone_commands
    if !pre.1 then ⟨false, destMk, 0, pre.2⟩
    else if !o.gitCloneOk then ⟨false, destMk, 1, pre.2⟩
    else
      let destFilled : CloneDest := ⟨true, true⟩
      let post := runCmdSeq o.hostCmdOk cfg.host_post_clone_commands
      if !post.1 then ⟨false, destFilled, 1, pre.2 + post.2⟩
      else ⟨true, destFilled, 1, pre.2 + post.2⟩

/-! ## ContainerRuntime exec (`ProjectProcessor._exec_in_container`, lines 180-228) -/

/-- Result of every remote command (`exit_code, stdout, stderr`). -/
structure ExecutionResult where
  exitCode : Int
  stdout : String
  stderr : String
deriving DecidableEq

/-- A command handed to `_exec_in_container`: either one shell string or a
list of argument tokens. -/
inductive ContainerCmd where
  | str (s : String)
  | toks (parts : List String)

/-- The argv actually passed to `exec_run`: a string command goes through
`["sh", "-c", command]`, a token list is executed directly. -/
def cmdToExec : ContainerCmd → List String
  | .str s => ["sh", "-c", s]
  | .toks l => l

/-- Is `b` a UTF-8 continuation byte. -/
def contByte (b : Nat) : Bool := decide (0x80 ≤ b ∧ b ≤ 0xBF)

/-- Valid range of the second byte of a multi-byte UTF-8 sequence headed by
`b` (tight ranges for `E0/ED/F0/F4` reject overlong encodings and
surrogates, as the Python decoder does). -/
def cont2Ok (b b2 : Nat) : Bool :=
  if b = 0xE0 then decide (0xA0 ≤ b2 ∧ b2 ≤ 0xBF)
  else if b = 0xED then decide (0x80 ≤ b2 ∧ b2 ≤ 0x9F)
  else if b = 0xF0 then decide (0x90 ≤ b2 ∧ b2 ≤ 0xBF)
  else if b = 0xF4 then decide (0x80 ≤ b2 ∧ b2 ≤ 0x8F)
  else contByte b2

/-- `bytes.decode("utf-8", errors="replace")`: total UTF-8 decoding where an
invalid maximal subpart becomes U+FFFD. -/
def utf8Replace : List Nat → List Char
  | [] => []
  | b :: bs =>
    if b < 0x80 then Char.ofNat b :: utf8Replace bs
    else if decide (0xC2 ≤ b ∧ b ≤ 0xDF) then
      match bs with
      | b2 :: bs2 =>
        if contByte b2 then
          Char.ofNat ((b - 0xC0) * 0x40 + (b2 - 0x80)) :: utf8Replace bs2
        else Char.ofNat 0xFFFD :: utf8Replace (b2 :: bs2)
      | [] => [Char.ofNat 0xFFFD]
    else if decide (0xE0 ≤ b ∧ b ≤ 0xEF) then
      match bs with
      | b2 :: bs2 =>
        if cont2Ok b b2 then
          match bs2 with
          | b3 :: bs3 =>
            if contByte b3 then
              Char.ofNat (((b - 0xE0) * 0x40 + (b2 - 0x80)) * 0x40 + (b3 - 0x80))
                :: utf8Replace bs3
            else Char.ofNat 0xFFFD :: utf8Replace (b3 :: bs3)
          | [] => [Char.ofNat 0xFFFD]
        else Char.ofNat 0xFFFD :: utf8Replace (b2 :: bs2)
      | [] => [Char.ofNat 0xFFFD]
    else if decide (0xF0 ≤ b ∧ b ≤ 0xF4) then
      match bs with
      | b2 :: bs2 =>
        if cont2Ok b b2 then
          match bs2 with
          | b3 :: bs3 =>
            if contByte b3 then
              match bs3 with
              | b4 :: bs4 =>
                if contByte b4 then
                  Char.ofNat ((((b - 0xF0) * 0x40 + (b2 - 0x80)) * 0x40 + (b3 - 0x80))
                      * 0x40 + (b4 - 0x80)) :: utf8Replace bs4
                else Char.ofNat 0xFFFD :: utf8Replace (b4 :: bs4)
              | [] => [Char.ofNat 0xFFFD]
            else Char.ofNat 0xFFFD :: utf8Replace (b3 :: bs3)
          | [] => [Char.ofNat 0xFFFD]
        else Char.ofNat 0xFFFD :: utf8Replace (b2 :: bs2)
      | [] => [Char.ofNat 0xFFFD]
    else Char.ofNat 0xFFFD :: utf8Replace bs
termination_by bs => bs.length
decreasing_by all_goals simp_arith [List.length_cons]

/-- `stdout_bytes.decode("utf-8", errors="replace") if stdout_bytes else ""`:
`None` and the empty byte string are both falsy and give `""`. -/
def decodeOut : Option (List Nat) → String
  | none => ""
  | some bs => String.mk (utf8Replace bs)

/-- External behaviour visible to one `_exec_in_container` call: whether a
container handle exists, the reported container status before and after the
restart attempt, which runtime API calls raise (carrying `str(e)`), and the
raw demuxed result of `exec_run`.  `rawExitCode` is a `Nat` because the
container runtime reports process exit statuses, which are non-negative. -/
structure ExecEnv where
  hasContainer : Bool
  runningNow : Bool
  runningAfterRestart : Bool
  reloadErr : Option String
  startErr : Option String
  execErr : Option String
  rawExitCode : Nat
  rawStdout : Option (List Nat)
  rawStderr : Option (List Nat)

/-- The `exec_run` call and decoding (lines 207-222); the second component
records the argv of a completed `exec_run`, `none` when it raised. -/
def execRunStep (env : ExecEnv) (cmd : ContainerCmd) :
    ExecutionResult × Option (List String) :=
  match env.execErr with
  | some e => (⟨-1, "", e⟩, none)
  | none =>
    (⟨(env.rawExitCode : Int), decodeOut env.rawStdout, decodeOut env.rawStderr⟩,
      some (cmdToExec cmd))

/-- `ProjectProcessor._exec_in_container`: missing container and a container
that stays non-running after a restart attempt yield synthetic failures; any
runtime API exception is caught and also becomes a synthetic failure; a
nonzero exit is returned normally. -/
def execInContainer (env : ExecEnv) (cmd : ContainerCmd) :
    ExecutionResult × Option (List String) :=
  if !env.hasContainer then (⟨-1, "", "Container not started"⟩, none)
  else
    match env.reloadErr with
    | some e => (⟨-1, "", e⟩, none)
    | none =>
      if env.runningNow then execRunStep env cmd
      else
        match env.startErr with
        | some e => (⟨-1, "", e⟩, none)
        | none =>
          if env.runningAfterRestart then execRunStep env cmd
          else (⟨-1, "", "Container not running"⟩, none)

/-! ## OperationRunner (`ProjectProcessor._run_atom_operations`, lines 290-370) -/

/-- One `atom_operations` entry; `none` stands for an absent key. -/
structure Operation where
  name : Option String
  atom_main_command : Option String
  atom_primary_output_container : Option String
  atom_slice_output_container : Option String
  extra_args : List String
  copy_primary_output : Bool
  host_target_file_suffix : Option String
  is_json_diff_target : Bool
  cjd_preset_type : Option String

/-- The fields of the loaded config that the operation runner reads. -/
structure RunConfig where
  language : String
  project_dir_in_repo : String
  atom_operations : List Operation

/-- Observable actions of the operation runner, in order. -/
inductive RunEvent where
  | cdxgenExec (workdir : String)
  | skipOp (opName : String)
  | execOp (cmdParts : List String) (workdir : String)
  | copyFile (containerSrc : String) (hostDest : List String)
deriving DecidableEq

/-- Deterministic atom command construction (lines 325-346):
`[executable, main]`, `-o`/`-s` when configured, `-l language`, the extra
arguments with `{language}` substituted, then the fixed `"."` input. -/
def buildAtomCmd (atomExecutable mainCmd lang : String) (op : Operation) : List String :=
  [atomExecutable, mainCmd]
    ++ (match optTruthy op.atom_primary_output_container with
        | some p => ["-o", p]
        | none => [])
    ++ (match optTruthy op.atom_slice_output_container with
        | some s => ["-s", s]
        | none => [])
    ++ ["-l", lang]
    ++ op.extra_args.map (fun a => a.replace "{language}" lang)
    ++ ["."]

/-- The copies attempted after a successful operation (lines 360-369):
the primary output under its base name when `copy_primary_output` is set,
and the slice output under `host_target_file_suffix` when that is set. -/
def copiesFor (subdir : String) (outputSubdir : List String) (op : Operation) :
    List RunEvent :=
  (match optTruthy op.atom_primary_output_container with
   | some p =>
     if op.copy_primary_output then
       [RunEvent.copyFile ("/app/" ++ subdir ++ "/" ++ p)
         (outputSubdir ++ [osBasename p])]
     else []
   | none => [])
  ++ (match optTruthy op.atom_slice_output_container,
        optTruthy op.host_target_file_suffix with
      | some s, some suffixName =>
        [RunEvent.copyFile ("/app/" ++ subdir ++ "/" ++ s)
          (outputSubdir ++ [suffixName])]
      | _, _ => [])

/-- The loop body for one operation (lines 313-369): a missing main command
is skipped with a warning; a nonzero exit only logs; a zero exit performs
the configured copies.  `oracle` gives the in-container exit code of each
command. -/
def opEvents (oracle : List String → Int) (atomExecutable lang subdir : String)
    (outputSubdir : List String) (op : Operation) : List RunEvent :=
  match optTruthy op.atom_main_command with
  | none => [RunEvent.skipOp (op.name.getD "unnamed_operation")]
  | some mainCmd =>
    let cmdParts := buildAtomCmd atomExecutable mainCmd lang op
    let workdir := "/app/" ++ subdir
    if oracle cmdParts != 0 then [RunEvent.execOp cmdParts workdir]
    else RunEvent.execOp cmdParts workdir :: copiesFor subdir outputSubdir op

/-- `ProjectProcessor._run_atom_operations`: runs the cdxgen prerequisite
once when the main command of any operation is `"reachables"`, iterates the
operations in config order with no state carried between them, and returns
`True` unconditionally. -/
def runAtomOperations (oracle : List String → Int) (atomExecutable : String)
    (cfg : RunConfig) (outputSubdir : List String) : Bool × List RunEvent :=
  let subdir := cfg.project_dir_in_repo
  let pre :=
    if cfg.atom_operations.any (fun op => op.atom_main_command == some "reachables")
    then [RunEvent.cdxgenExec ("/app/" ++ subdir)]
    else []
  (true, pre ++ cfg.atom_operations.flatMap (opEvents oracle atomExecutable cfg.language subdir outputSubdir))

/-- The atom commands executed, in order. -/
def execCmds : List RunEvent → List (List String)
  | [] => []
  | RunEvent.execOp c _ :: rest => c :: execCmds rest
  | _ :: rest => execCmds rest

def isCopyEvent : RunEvent → Bool
  | RunEvent.copyFile _ _ => true
  | _ => false

/-! ## ArtifactExtractor (`ProjectProcessor._copy_from_container`, lines 372-461) -/

/-- One member of the tar archive returned by `get_archive`: its path inside
the archive, whether it is a directory, and its contents when a file. -/
structure TarMember where
  name : List String
  isDir : Bool
  content : String

/-- `os.path.relpath(p, base)` for the one shape the source exercises (the
base is a leading run of `p`; in the single-member branch `p = base`, giving
`"."`, which is the empty component list here). -/
def relPathTo (p base : List String) : List String :=
  if p = base then []
  else if p.take base.length = base then p.drop base.length
  else p

/-- `tar.extract` of a single member into `extractToDir`: a directory member
is registered; a file member is written, creating parent directories. -/
def extractMember (extractToDir : List String) (fs : FS) (m : TarMember) : FS :=
  let target := extractToDir ++ m.name
  if m.isDir then ⟨fs.files, target :: fs.dirs⟩
  else setFile (mkdirParents fs target.dropLast) target m.content

/-- `tar.extractall(path=extractToDir)`. -/
def extractAll (extractToDir : List String) (fs : FS) (members : List TarMember) : FS :=
  members.foldl (extractMember extractToDir) fs

/-- The extraction logic of `_copy_from_container` (lines 396-448).  The
destination directory is `host_path` itself when its name has no suffix,
otherwise its parent.  The first branch fires only when the archive has
exactly one member in total and that member is a directory
(`len(members) == 1 and members[0].isdir()`): the loop renames that member
to `os.path.relpath(name, name) = "."` and skips it, `extractall` then
extracts the renamed member, and the base-name fixups may move an extracted
entry onto the destination name.  Every other archive is extracted as-is. -/
def extractArchive (fs : FS) (members : List TarMember) (containerPath : String)
    (hostPath : List String) : FS :=
  let extractToDir := if pyHasSuffix (lastComp hostPath) then hostPath.dropLast else hostPath
  let fs0 := mkdirParents fs extractToDir
  match members with
  | [m0] =>
    if m0.isDir then
      let fs1 := extractMember extractToDir fs0 { m0 with name := relPathTo m0.name m0.name }
      let extractedFileName := osBasename containerPath
      let hpName := lastComp hostPath
      if existsPath fs1 (extractToDir ++ [extractedFileName]) && !(hpName == extractedFileName) then
        movePath fs1 (extractToDir ++ [extractedFileName]) hostPath
      else if !(existsPath fs1 (extractToDir ++ [hpName]))
          && isFile fs1 (extractToDir ++ [extractedFileName]) then
        if hostPath.dropLast == extractToDir && !(hpName == extractedFileName) then
          movePath fs1 (extractToDir ++ [extractedFileName]) hostPath
        else fs1
      else fs1
    else extractAll extractToDir fs0 [m0]
  | _ => extractAll extractToDir fs0 members

/-- The branch condition of the source for stripping the directory, verbatim:
`len(members) == 1 and members[0].isdir()`. -/
def stripBranchTaken (members : List TarMember) : Bool :=
  members.length == 1 && ((members.head?.map (·.isDir)).getD false)

/-- Modelled from the spec: "the archive contains exactly one top-level
entry and that entry is a directory" - the distinct leading components
number one and that entry is a directory member. -/
def specSingleTopLevelDirEntry (members : List TarMember) : Bool :=
  match (members.filterMap (fun m => m.name.head?)).eraseDups with
  | [t] => members.any (fun m => m.name == [t] && m.isDir)
  | _ => false

/-- Which steps of `_copy_from_container` fail: the probe result of
`test -e`, and which of the fallible calls raise.  `archiveNotFound` is
`docker.errors.NotFound` from `get_archive` (the only `NotFound` source);
`archiveApiError` is any other exception it raises; the write and the
extraction can only raise generic exceptions. -/
structure CopyEnv where
  containerPresent : Bool
  testPathExists : Bool
  archiveNotFound : Bool
  archiveApiError : Bool
  writeTempRaises : Bool
  extractRaises : Bool

structure CopyOutcome where
  ok : Bool
  fs : FS
  tempCreated : Bool
  tempDeleted : Bool

/-- `ProjectProcessor._copy_from_container`.  The temporary tar file is
created only after `get_archive` succeeded, so the `NotFound` handler
(which does not unlink) and a `get_archive` API error (whose handler finds
`temp_tar_path` unbound) never see a created temp file; the generic handler
unlinks an existing temp file, and the success path unlinks it as well. -/
def copyFromContainer (env : CopyEnv) (members : List TarMember)
    (containerPath : String) (hostPath : List String) (fs : FS) : CopyOutcome :=
  if !env.containerPresent then ⟨false, fs, false, false⟩
  else
    -- `host_path.parent.mkdir(parents=True, exist_ok=True)` (line 379)
    let fsA := mkdirParents fs hostPath.dropLast
    if !env.testPathExists then ⟨false, fsA, false, false⟩
    else if env.archiveNotFound then ⟨false, fsA, false, false⟩
    else if env.archiveApiError then ⟨false, fsA, false, false⟩
    else if env.writeTempRaises then ⟨false, fsA, true, true⟩
    else if env.extractRaises then ⟨false, fsA, true, true⟩
    else ⟨true, extractArchive fsA members containerPath hostPath, true, true⟩

/-- The benign runtime environment: the probe succeeds and nothing raises. -/
def benignCopyEnv : CopyEnv := ⟨true, true, false, false, false, false⟩

/-! ## Orchestrator (`ProjectProcessor.process`, lines 546-601, and the
per-project loop of `main.main`, lines 89-120) -/

/-- Stage outcomes of the pipeline run of one project.  The results of the two
operation runs and of the comparison are logged but never affect control
flow or the return value; `bodyRaises` is an unexpected exception inside
the `try` body. -/
structure PipeEnv where
  cloneOk : Bool
  startOk : Bool
  installOk : Bool
  buildOk : Bool
  jarOpsOk : Bool
  nativeOpsOk : Bool
  compareOk : Bool
  bodyRaises : Bool

/-- The container-session state the pipeline mutates. -/
structure SessionState where
  containerStarted : Bool
  handlePresent : Bool
  removed : Bool
  cleanupCalls : Nat
deriving DecidableEq

/-- `ProjectProcessor._cleanup_container`: stop and force-remove when a
handle is present, then clear the handle; otherwise only log.  Every call
is counted. -/
def cleanupContainer (st : SessionState) : SessionState :=
  if st.handlePresent then
    { st with handlePresent := false, removed := true, cleanupCalls := st.cleanupCalls + 1 }
  else { st with cleanupCalls := st.cleanupCalls + 1 }

/-- `ProjectProcessor.process`: clone failure aborts before any container
exists; start failure calls cleanup explicitly; once the container is
started the whole body runs inside `try ... finally self._cleanup_container()`,
so install/build failures, logged-only jar/native/compare failures,
unexpected exceptions, and normal completion all pass through cleanup. -/
def processProject (env : PipeEnv) : Bool × SessionState :=
  if !env.cloneOk then (false, ⟨false, false, false, 0⟩)
  else if !env.startOk then (false, cleanupContainer ⟨false, false, false, 0⟩)
  else
    let st : SessionState := ⟨true, true, false, 0⟩
    let ok :=
      if env.bodyRaises then false
      else if !env.installOk then false
      else if !env.buildOk then false
      else true
    (ok, cleanupContainer st)

/-- The per-project `finally` block of `main.main` (lines 116-120): with
`--keep-containers` the extra cleanup is skipped only when a handle is still
present; without the flag cleanup is called again. -/
def mainPerProject (env : PipeEnv) (keepContainers : Bool) : Bool × SessionState :=
  let r := processProject env
  if keepContainers && r.2.handlePresent then r
  else if !keepContainers then (r.1, cleanupContainer r.2)
  else r

/-- A run in which every stage succeeds. -/
def envAllOk : PipeEnv := ⟨true, true, true, true, true, true, true, false⟩

/-! ## Concrete inputs used by counterexamples and witnesses, and the
spec-shaped validation predicate for the config loader -/

/-- The validation conditions on a config mapping as the (amended)
specification states them: a truthy `github_url`, a truthy `language`, and
an `atom_operations` key holding a sequence - with no requirement that the
sequence be non-empty. -/
def validConfigData (cfg : List (String × JVal)) : Bool :=
  pyTruthyOpt (lookupKey cfg "github_url") && pyTruthyOpt (lookupKey cfg "language")
    && (match lookupKey cfg "atom_operations" with
        | some v => isJArr v
        | none => false)

/-- A config file whose own `language` disagrees with the directory. -/
def mismatchCfg : List (String × JVal) :=
  [("github_url", JVal.jstr "https://github.com/x/y.git"), ("language", JVal.jstr "python"),
   ("atom_operations", JVal.jarr [JVal.jobj [("name", JVal.jstr "usages")]])]

/-- Archive of `{"top/": {"bom.json": BOM}}`: the directory member and the
file member inside it (tar lists both). -/
def nestedMembers : List TarMember := [⟨["top"], true, ""⟩, ⟨["top", "bom.json"], false, "BOM"⟩]

/-- Archive of `{"bom.json": BOM}`: one file member. -/
def flatMembers : List TarMember := [⟨["bom.json"], false, "BOM"⟩]

def cloneCfgCE : CloneConfig := ⟨["git submodule init"], ["git submodule update"]⟩

def cloneOracleCE : CloneOracle := ⟨fun _ => true, true⟩

/-- A container that exists but reports a non-running status and stays
non-running after the restart attempt, with no API errors. -/
def envStopped : ExecEnv := ⟨true, false, false, none, none, none, 0, none, none⟩

def wopA : Operation := ⟨some "deps", some "parsedeps", none, none, [], false, none, false, none⟩

def wopB : Operation :=
  ⟨some "usages", some "usages", some "usages.json", none, [], true, none, true, none⟩

def wopC : Operation := ⟨some "dataflow", some "data-flow", none, none, [], false, none, false, none⟩

/-- An operation with no `atom_main_command`. -/
def wopSkip : Operation := ⟨some "broken", none, none, none, [], false, none, false, none⟩

/-- An operation with every output field set. -/
def wopFull : Operation :=
  ⟨some "usages", some "usages", some "usages.json", some "usages.slice.json", [], true,
    some "usages.json", true, some "bom"⟩

/-- An exit-code oracle under which exactly the command built for `wopB`
fails. -/
def oracleFailB : List String → Int :=
  fun cmd => if cmd = buildAtomCmd "atom" "usages" "java" wopB then 1 else 0

/-! ## Helper lemmas -/

theorem digitVal_digitChar (d : Nat) (hd : d < 10) : decDigitVal (Nat.digitChar d) = d := by
  interval_cases d <;> rfl

theorem decodeDecimal_append_one (xs : List Char) (c : Char) :
    decodeDecimal (xs ++ [c]) = decodeDecimal xs * 10 + decDigitVal c := by
  simp [decodeDecimal, List.foldl_append]

theorem toDigitsCore_acc (f : Nat) : ∀ (n : Nat) (ds : List Char),
    Nat.toDigitsCore 10 f n ds = Nat.toDigitsCore 10 f n [] ++ ds := by
  induction f with
  | zero => intro n ds; simp [Nat.toDigitsCore]
  | succ f ih =>
    intro n ds
    simp only [Nat.toDigitsCore]
    by_cases h : n / 10 = 0
    · simp [h]
    · rw [if_neg h, if_neg h, ih (n / 10) (Nat.digitChar (n % 10) :: ds),
        ih (n / 10) [Nat.digitChar (n % 10)]]
      simp

theorem decode_toDigitsCore (f : Nat) : ∀ n : Nat, n < f →
    decodeDecimal (Nat.toDigitsCore 10 f n []) = n := by
  induction f with
  | zero => intro n h; exact absurd h (Nat.not_lt_zero n)
  | succ f ih =>
    intro n hn
    simp only [Nat.toDigitsCore]
    by_cases h : n / 10 = 0
    · have h10 : n < 10 := (Nat.div_eq_zero_iff (by norm_num)).mp h
      rw [if_pos h]
      show decodeDecimal [Nat.digitChar (n % 10)] = n
      rw [Nat.mod_eq_of_lt h10]
      simp [decodeDecimal, digitVal_digitChar n h10]
    · have hge : 10 ≤ n := by
        by_contra hlt
        exact h ((Nat.div_eq_zero_iff (by norm_num)).mpr (by omega))
      have hltf : n / 10 < f := by
        have := Nat.div_lt_self (by omega : 0 < n) (by norm_num : 1 < 10)
        omega
      rw [if_neg h, toDigitsCore_acc, decodeDecimal_append_one, ih (n / 10) hltf,
        digitVal_digitChar (n % 10) (Nat.mod_lt n (by norm_num))]
      have := Nat.div_add_mod n 10
      omega

/-- Decimal printing of naturals is injective. -/
theorem natRepr_injective (m n : Nat) (h : Nat.repr m = Nat.repr n) : m = n := by
  have hd : Nat.toDigitsCore 10 (m + 1) m [] = Nat.toDigitsCore 10 (n + 1) n [] := by
    have h2 := congrArg String.data h
    simp only [Nat.repr, Nat.toDigits, List.asString] at h2
    exact h2
  have e1 := decode_toDigitsCore (m + 1) m (Nat.lt_succ_self m)
  have e2 := decode_toDigitsCore (n + 1) n (Nat.lt_succ_self n)
  have e3 : decodeDecimal (Nat.toDigitsCore 10 (m + 1) m [])
      = decodeDecimal (Nat.toDigitsCore 10 (n + 1) n []) := by rw [hd]
  rw [e1, e2] at e3
  exact e3

theorem string_append_cancel_left (p a b : String) (h : p ++ a = p ++ b) : a = b := by
  have hd := congrArg String.data h
  simp only [String.data_append] at hd
  exact String.ext (List.append_cancel_left hd)

theorem lookupKey_nil (k : String) : lookupKey [] k = none := rfl

theorem lookupKey_cons (k0 : String) (v0 : JVal) (rest : List (String × JVal)) (k : String) :
    lookupKey ((k0, v0) :: rest) k = if k0 = k then some v0 else lookupKey rest k := by
  by_cases h : k0 = k
  · have hb : ((k0, v0).1 == k) = true := by simpa using h
    simp only [lookupKey, List.find?, hb, if_pos h]
    rfl
  · have hb : ((k0, v0).1 == k) = false := by simpa using h
    simp only [lookupKey, List.find?, hb, if_neg h]

theorem lookupKey_setKeyVal_self (kvs : List (String × JVal)) (k : String) (v : JVal) :
    lookupKey (setKeyVal kvs k v) k = some v := by
  induction kvs with
  | nil => simp [setKeyVal, lookupKey_cons]
  | cons kv rest ih =>
    rcases kv with ⟨k0, v0⟩
    by_cases h : k0 = k
    · simp [setKeyVal, h, lookupKey_cons]
    · simp [setKeyVal, h, lookupKey_cons, ih]

theorem lookupKey_setKeyVal_ne (kvs : List (String × JVal)) (k k2 : String) (v : JVal)
    (h : k2 ≠ k) : lookupKey (setKeyVal kvs k v) k2 = lookupKey kvs k2 := by
  induction kvs with
  | nil => simp [setKeyVal, lookupKey_cons, lookupKey_nil, Ne.symm h]
  | cons kv rest ih =>
    rcases kv with ⟨k0, v0⟩
    by_cases h0 : k0 = k
    · subst h0
      simp [setKeyVal, lookupKey_cons, Ne.symm h]
    · simp [setKeyVal, h0, lookupKey_cons, ih]

theorem execCmds_append (xs ys : List RunEvent) :
    execCmds (xs ++ ys) = execCmds xs ++ execCmds ys := by
  induction xs with
  | nil => rfl
  | cons e rest ih => cases e <;> simp [execCmds, ih]

theorem execCmds_copiesFor (subdir : String) (outDir : List String) (op : Operation) :
    execCmds (copiesFor subdir outDir op) = [] := by
  unfold copiesFor
  rcases h1 : optTruthy op.atom_primary_output_container with _ | p <;>
    rcases h2 : optTruthy op.atom_slice_output_container with _ | s <;>
    rcases h3 : optTruthy op.host_target_file_suffix with _ | suf <;>
    cases hcp : op.copy_primary_output <;>
    simp [execCmds, execCmds_append]

theorem execCmds_cdxgenPre (bb : Bool) (w : String) (rest : List RunEvent) :
    execCmds ((if bb then [RunEvent.cdxgenExec w] else []) ++ rest) = execCmds rest := by
  cases bb <;> simp [execCmds, execCmds_append]

/-! ## Claim theorems -/

/-- C1: the claim says cleanup is invoked for every terminal outcome except
when retention is explicitly requested, retention suppressing the cleanup
call.  In the code, `process` runs cleanup in its own `finally` block
unconditionally, and the `--keep-containers` branch in `main` only gates a
second, by-then-redundant cleanup.  Evaluated at a fully successful run with
retention requested: the pipeline returns success, yet the container has
been stopped and removed by exactly the one cleanup call inside `process`,
so the retain-for-debugging directive does not suppress cleanup. -/
theorem C1_retain_directive_does_not_suppress_cleanup :
    (mainPerProject envAllOk true).1 = true ∧
    (mainPerProject envAllOk true).2.removed = true ∧
    (mainPerProject envAllOk true).2.cleanupCalls = 1 := ⟨rfl, rfl, rfl⟩

/-- C2: the claim says extracting `{"top/": {"bom.json": BOM}}` and
`{"bom.json": BOM}` to the same destination yield identical files at that
destination with no residual `top/` directory, the strip branch firing
exactly on a single top-level directory entry.  Evaluated on the code: the
flat archive does land at the destination, but the nested archive (two tar
members) fails the `len(members) == 1` test, takes the extract-as-is
branch, leaves the file nested at `dest/top/bom.json`, leaves the residual
`dest/top/` directory, and produces nothing at `dest/bom.json` - even
though it is a single top-level directory entry in the sense of the spec. -/
theorem C2_nested_archive_is_not_flattened :
    getFile (copyFromContainer benignCopyEnv flatMembers "/app/proj/bom.json"
        ["dest", "bom.json"] emptyFS).fs ["dest", "bom.json"] = some "BOM" ∧
    getFile (copyFromContainer benignCopyEnv nestedMembers "/app/proj/bom.json"
        ["dest", "bom.json"] emptyFS).fs ["dest", "bom.json"] = none ∧
    getFile (copyFromContainer benignCopyEnv nestedMembers "/app/proj/bom.json"
        ["dest", "bom.json"] emptyFS).fs ["dest", "top", "bom.json"] = some "BOM" ∧
    hasDir (copyFromContainer benignCopyEnv nestedMembers "/app/proj/bom.json"
        ["dest", "bom.json"] emptyFS).fs ["dest", "top"] = true ∧
    specSingleTopLevelDirEntry nestedMembers = true ∧
    stripBranchTaken nestedMembers = false := by
  decide

/-- C3: for an operation list `[a, b, c]` in which `b` exits nonzero while
`a` and `c` succeed, all three operations are executed in order, `b`
contributes no copy action, and the runner returns true; and an operation
`d` with no main command is skipped with a warning while the surrounding
operations still run and the runner still returns true. -/
theorem C3_per_operation_isolation (oracle : List String → Int) (exe lang subdir : String)
    (outDir : List String) (a b c d : Operation) (ma mb mc : String)
    (hma : optTruthy a.atom_main_command = some ma)
    (hmb : optTruthy b.atom_main_command = some mb)
    (hmc : optTruthy c.atom_main_command = some mc)
    (hmd : optTruthy d.atom_main_command = none)
    (h0a : oracle (buildAtomCmd exe ma lang a) = 0)
    (hfb : oracle (buildAtomCmd exe mb lang b) ≠ 0)
    (h0c : oracle (buildAtomCmd exe mc lang c) = 0) :
    (runAtomOperations oracle exe ⟨lang, subdir, [a, b, c]⟩ outDir).1 = true ∧
    execCmds (runAtomOperations oracle exe ⟨lang, subdir, [a, b, c]⟩ outDir).2
      = [buildAtomCmd exe ma lang a, buildAtomCmd exe mb lang b, buildAtomCmd exe mc lang c] ∧
    opEvents oracle exe lang subdir outDir b
      = [RunEvent.execOp (buildAtomCmd exe mb lang b) ("/app/" ++ subdir)] ∧
    (runAtomOperations oracle exe ⟨lang, subdir, [a, d, c]⟩ outDir).1 = true ∧
    execCmds (runAtomOperations oracle exe ⟨lang, subdir, [a, d, c]⟩ outDir).2
      = [buildAtomCmd exe ma lang a, buildAtomCmd exe mc lang c] ∧
    opEvents oracle exe lang subdir outDir d
      = [RunEvent.skipOp (d.name.getD "unnamed_operation")] := by
  have evA : opEvents oracle exe lang subdir outDir a
      = RunEvent.execOp (buildAtomCmd exe ma lang a) ("/app/" ++ subdir)
        :: copiesFor subdir outDir a := by
    simp [opEvents, hma, h0a]
  have evB : opEvents oracle exe lang subdir outDir b
      = [RunEvent.execOp (buildAtomCmd exe mb lang b) ("/app/" ++ subdir)] := by
    simp [opEvents, hmb, bne_iff_ne, hfb]
  have evC : opEvents oracle exe lang subdir outDir c
      = RunEvent.execOp (buildAtomCmd exe mc lang c) ("/app/" ++ subdir)
        :: copiesFor subdir outDir c := by
    simp [opEvents, hmc, h0c]
  have evD : opEvents oracle exe lang subdir outDir d
      = [RunEvent.skipOp (d.name.getD "unnamed_operation")] := by
    simp [opEvents, hmd]
  refine ⟨rfl, ?_, evB, rfl, ?_, evD⟩
  · simp only [runAtomOperations, List.flatMap_cons, List.flatMap_nil]
    rw [execCmds_cdxgenPre]
    simp [execCmds_append, evA, evB, evC, execCmds, execCmds_copiesFor]
  · simp only [runAtomOperations, List.flatMap_cons, List.flatMap_nil]
    rw [execCmds_cdxgenPre]
    simp [execCmds_append, evA, evD, evC, execCmds, execCmds_copiesFor]

/-- C3 witness: a concrete three-operation run in which the middle
operation fails, and a concrete run with a skipped operation. -/
theorem C3_per_operation_isolation_witness :
    (runAtomOperations oracleFailB "atom" ⟨"java", ".", [wopA, wopB, wopC]⟩ ["out"]).1 = true ∧
    execCmds (runAtomOperations oracleFailB "atom" ⟨"java", ".", [wopA, wopB, wopC]⟩ ["out"]).2
      = [buildAtomCmd "atom" "parsedeps" "java" wopA, buildAtomCmd "atom" "usages" "java" wopB,
          buildAtomCmd "atom" "data-flow" "java" wopC] ∧
    opEvents oracleFailB "atom" "java" "." ["out"] wopB
      = [RunEvent.execOp (buildAtomCmd "atom" "usages" "java" wopB) ("/app/" ++ ".")] ∧
    execCmds (runAtomOperations oracleFailB "atom" ⟨"java", ".", [wopA, wopSkip, wopC]⟩ ["out"]).2
      = [buildAtomCmd "atom" "parsedeps" "java" wopA, buildAtomCmd "atom" "data-flow" "java" wopC] ∧
    opEvents oracleFailB "atom" "java" "." ["out"] wopSkip
      = [RunEvent.skipOp "broken"] := by
  have h := C3_per_operation_isolation oracleFailB "atom" "java" "." ["out"] wopA wopB wopC
    wopSkip "parsedeps" "usages" "data-flow" rfl rfl rfl rfl (by decide) (by decide) (by decide)
  exact ⟨h.1, h.2.1, h.2.2.1, h.2.2.2.2.1, h.2.2.2.2.2⟩

/-- C4 counterexample: at a destination that exists but is empty, the
acquisition step returns success having run neither the clone nor any host
command, refuting "returns success without running the clone ... exactly
when the destination already exists and is non-empty". -/
theorem C4_counterexample :
    cloneRepo cloneCfgCE cloneOracleCE ⟨true, false⟩ = ⟨true, ⟨true, false⟩, 0, 0⟩ ∧
    (⟨true, false⟩ : CloneDest).populated = false := ⟨rfl, rfl⟩

/-- C4 (amended): acquisition returns success without running the clone or
any pre/post host command exactly when the destination path already exists
(empty or not); consequently, whenever a call succeeds, a second call on
the resulting destination returns success immediately and the clone runs
at most once overall. -/
theorem C4_acquisition_idempotent (cfg : CloneConfig) (o : CloneOracle) (d : CloneDest) :
    (((cloneRepo cfg o d).ok = true ∧ (cloneRepo cfg o d).cloneRuns = 0 ∧
        (cloneRepo cfg o d).hostCmdRuns = 0) ↔ d.onDisk = true) ∧
    ((cloneRepo cfg o d).ok = true →
      (cloneRepo cfg o d).cloneRuns ≤ 1 ∧
      cloneRepo cfg o (cloneRepo cfg o d).dest = ⟨true, (cloneRepo cfg o d).dest, 0, 0⟩) := by
  rcases d with ⟨onDisk, pop⟩
  cases onDisk with
  | true => simp [cloneRepo]
  | false =>
    simp only [cloneRepo]
    rcases hpre : runCmdSeq o.hostCmdOk cfg.host_pre_clone_commands with ⟨pok, pn⟩
    cases pok with
    | false => simp [cloneRepo]
    | true =>
      cases hg : o.gitCloneOk with
      | false => simp [cloneRepo, hg]
      | true =>
        rcases hpost : runCmdSeq o.hostCmdOk cfg.host_post_clone_commands with ⟨qok, qn⟩
        cases qok with
        | false => simp [cloneRepo, hg]
        | true => simp [cloneRepo, hg]

/-- C4 witness: a fresh destination is cloned once; the repeated call skips
the clone and succeeds. -/
theorem C4_acquisition_idempotent_witness :
    (cloneRepo cloneCfgCE cloneOracleCE ⟨false, false⟩).cloneRuns ≤ 1 ∧
    cloneRepo cloneCfgCE cloneOracleCE (cloneRepo cloneCfgCE cloneOracleCE ⟨false, false⟩).dest
      = ⟨true, (cloneRepo cloneCfgCE cloneOracleCE ⟨false, false⟩).dest, 0, 0⟩ :=
  (C4_acquisition_idempotent cloneCfgCE cloneOracleCE ⟨false, false⟩).2 rfl

/-- C5: exec never raises: the argv handed to the runtime is the token list
itself for a list command and `["sh", "-c", cmd]` for a string command; a
missing container yields the synthetic "Container not started" failure; a
container that is not running and stays not running after the restart
attempt yields the synthetic "Container not running" failure instead of an
exception; and whenever the remote call completes, its exit code (zero or
not) is returned as-is with both output streams decoded by the
replacing UTF-8 decoder. -/
theorem C5_exec_self_heals_and_never_raises (env : ExecEnv) (cmd : ContainerCmd) :
    ((execInContainer env cmd).2 = none ∨ (execInContainer env cmd).2 = some (cmdToExec cmd)) ∧
    (∀ s, cmd = ContainerCmd.str s → cmdToExec cmd = ["sh", "-c", s]) ∧
    (∀ l, cmd = ContainerCmd.toks l → cmdToExec cmd = l) ∧
    (env.hasContainer = false →
      execInContainer env cmd = (⟨-1, "", "Container not started"⟩, none)) ∧
    (env.hasContainer = true → env.reloadErr = none → env.runningNow = false →
      env.startErr = none → env.runningAfterRestart = false →
      execInContainer env cmd = (⟨-1, "", "Container not running"⟩, none)) ∧
    ((execInContainer env cmd).2 ≠ none →
      (execInContainer env cmd).1
        = ⟨(env.rawExitCode : Int), decodeOut env.rawStdout, decodeOut env.rawStderr⟩) := by
  obtain ⟨hc, rn, ra, re, se, ee, ec, so, sf⟩ := env
  refine ⟨?_, fun s hs => by subst hs; rfl, fun l hl => by subst hl; rfl, ?_, ?_, ?_⟩ <;>
    cases hc <;> cases rn <;> cases ra <;> cases re <;> cases se <;> cases ee <;>
      simp [execInContainer, execRunStep]

/-- C5 witness: a stopped container that cannot be restarted produces the
synthetic failure result for a shell-string command. -/
theorem C5_exec_self_heals_and_never_raises_witness :
    execInContainer envStopped (ContainerCmd.str "ls")
      = (⟨-1, "", "Container not running"⟩, none) :=
  (C5_exec_self_heals_and_never_raises envStopped (ContainerCmd.str "ls")).2.2.2.2.1
    rfl rfl rfl rfl rfl

/-- C6 counterexample: a config whose `atom_operations` is the empty list
passes validation (the code only checks `isinstance(..., list)`), with the
`language` field silently overwritten by the directory value - refuting the
part of the claim that requires a non-empty operations sequence. -/
theorem C6_counterexample :
    loadConfig (some [("github_url", JVal.jstr "https://github.com/x/y.git"),
        ("language", JVal.jstr "python"), ("atom_operations", JVal.jarr [])]) "java"
      = some [("github_url", JVal.jstr "https://github.com/x/y.git"),
        ("language", JVal.jstr "java"), ("atom_operations", JVal.jarr [])] := rfl

/-- C6 (amended): config loading fails exactly when the file is unreadable
or not valid structured data (the `none` input), or `repositoryUrl` or
`language` is missing or falsy, or `atom_operations` is missing or not a
sequence - an empty sequence is accepted; and every successfully loaded
config carries the directory-derived language, whatever the file said. -/
theorem C6_load_config_characterization (input : Option (List (String × JVal)))
    (dirLang : String) :
    ((loadConfig input dirLang = none) ↔
      (input = none ∨ ∃ cfg, input = some cfg ∧ validConfigData cfg = false))
    ∧ (∀ out, loadConfig input dirLang = some out →
        lookupKey out "language" = some (JVal.jstr dirLang)) := by
  cases input with
  | none => simp [loadConfig]
  | some cfg =>
    have hne : "atom_operations" ≠ "language" := by decide
    constructor
    · simp only [loadConfig]
      cases hg : pyTruthyOpt (lookupKey cfg "github_url") <;>
        cases hl : pyTruthyOpt (lookupKey cfg "language")
      case true.true =>
        simp only [hg, hl, Bool.not_true, Bool.or_self, Bool.false_eq_true, if_false]
        rw [lookupKey_setKeyVal_ne cfg "language" "atom_operations" (JVal.jstr dirLang) hne]
        cases ha : lookupKey cfg "atom_operations" with
        | none => simp [validConfigData, hg, hl, ha]
        | some v => cases hv : isJArr v <;> simp [validConfigData, hg, hl, ha, hv]
      all_goals simp [validConfigData, hg, hl]
    · intro out hout
      simp only [loadConfig] at hout
      cases hg : pyTruthyOpt (lookupKey cfg "github_url") <;>
        cases hl : pyTruthyOpt (lookupKey cfg "language") <;>
        simp only [hg, hl, Bool.not_true, Bool.not_false, Bool.or_self, Bool.true_or,
          Bool.or_true, if_true, if_false, Bool.false_eq_true, Bool.true_eq_false,
          reduceCtorEq] at hout
      rw [lookupKey_setKeyVal_ne cfg "language" "atom_operations" (JVal.jstr dirLang) hne] at hout
      cases ha : lookupKey cfg "atom_operations" with
      | none =>
        rw [ha] at hout
        exact Option.noConfusion hout
      | some v =>
        rw [ha] at hout
        replace hout : (if isJArr v = true then
            some (setKeyVal cfg "language" (JVal.jstr dirLang)) else none) = some out := hout
        cases hv : isJArr v
        · rw [hv] at hout
          exact absurd hout (by simp)
        · rw [hv] at hout
          simp only [if_true, Option.some.injEq] at hout
          rw [← hout]
          exact lookupKey_setKeyVal_self cfg "language" (JVal.jstr dirLang)

/-- C6 witness: a config whose own language ("python") disagrees with the
directory ("java") still loads, and the loaded config carries "java". -/
theorem C6_load_config_characterization_witness :
    lookupKey [("github_url", JVal.jstr "https://github.com/x/y.git"),
        ("language", JVal.jstr "java"),
        ("atom_operations", JVal.jarr [JVal.jobj [("name", JVal.jstr "usages")]])] "language"
      = some (JVal.jstr "java") :=
  (C6_load_config_characterization (some mismatchCfg) "java").2 _ rfl

/-- C7: for an operation whose command exits zero, if `copy_primary_output`
is set (and a primary output path is configured) the primary output is
copied from its container path into the output directory under its base
name, and if `host_target_file_suffix` is set (and a slice output path is
configured) the slice output is copied to that suffix in the output
directory; for a nonzero exit the trace of the operation is exactly the
execution, with no copy. -/
theorem C7_output_copying_on_success (oracle : List String → Int) (exe lang subdir : String)
    (outDir : List String) (op : Operation) (mainCmd : String)
    (hm : optTruthy op.atom_main_command = some mainCmd) :
    (oracle (buildAtomCmd exe mainCmd lang op) = 0 →
      (∀ p, optTruthy op.atom_primary_output_container = some p →
        op.copy_primary_output = true →
        RunEvent.copyFile ("/app/" ++ subdir ++ "/" ++ p) (outDir ++ [osBasename p])
          ∈ opEvents oracle exe lang subdir outDir op) ∧
      (∀ s suf, optTruthy op.atom_slice_output_container = some s →
        optTruthy op.host_target_file_suffix = some suf →
        RunEvent.copyFile ("/app/" ++ subdir ++ "/" ++ s) (outDir ++ [suf])
          ∈ opEvents oracle exe lang subdir outDir op)) ∧
    (oracle (buildAtomCmd exe mainCmd lang op) ≠ 0 →
      opEvents oracle exe lang subdir outDir op
        = [RunEvent.execOp (buildAtomCmd exe mainCmd lang op) ("/app/" ++ subdir)]) := by
  constructor
  · intro h0
    have ev : opEvents oracle exe lang subdir outDir op
        = RunEvent.execOp (buildAtomCmd exe mainCmd lang op) ("/app/" ++ subdir)
          :: copiesFor subdir outDir op := by
      simp [opEvents, hm, h0]
    rw [ev]
    constructor
    · intro p hp hcp
      simp [copiesFor, hp, hcp]
    · intro s suf hs hsuf
      simp [copiesFor, hs, hsuf]
  · intro hne
    simp [opEvents, hm, bne_iff_ne, hne]

/-- C7 witness: a fully configured operation copies both outputs on
success and nothing on failure. -/
theorem C7_output_copying_on_success_witness :
    RunEvent.copyFile ("/app/" ++ "." ++ "/" ++ "usages.json")
        (["out"] ++ [osBasename "usages.json"])
      ∈ opEvents (fun _ => 0) "atom" "java" "." ["out"] wopFull ∧
    RunEvent.copyFile ("/app/" ++ "." ++ "/" ++ "usages.slice.json") (["out"] ++ ["usages.json"])
      ∈ opEvents (fun _ => 0) "atom" "java" "." ["out"] wopFull ∧
    opEvents (fun _ => 1) "atom" "java" "." ["out"] wopFull
      = [RunEvent.execOp (buildAtomCmd "atom" "usages" "java" wopFull) ("/app/" ++ ".")] := by
  have h0 := C7_output_copying_on_success (fun _ => 0) "atom" "java" "." ["out"] wopFull
    "usages" rfl
  have h1 := C7_output_copying_on_success (fun _ => 1) "atom" "java" "." ["out"] wopFull
    "usages" rfl
  exact ⟨(h0.1 rfl).1 "usages.json" rfl rfl,
    (h0.1 rfl).2 "usages.slice.json" "usages.json" rfl rfl, h1.2 (by decide)⟩

/-- C8: whenever the artifact copier creates its temporary archive file -
whatever the combination of probe failure, archive retrieval error, write
error, extraction error, or success - the file is deleted before the call
returns, so no temporary archive is ever leaked. -/
theorem C8_temp_archive_never_leaked (env : CopyEnv) (members : List TarMember)
    (containerPath : String) (hostPath : List String) (fs : FS)
    (h : (copyFromContainer env members containerPath hostPath fs).tempCreated = true) :
    (copyFromContainer env members containerPath hostPath fs).tempDeleted = true := by
  obtain ⟨cp, te, nf, ae, wr, er⟩ := env
  cases cp <;> cases te <;> cases nf <;> cases ae <;> cases wr <;> cases er <;>
    simp_all [copyFromContainer]

/-- C8 witness: a successful copy deletes the temporary archive. -/
theorem C8_temp_archive_never_leaked_witness :
    (copyFromContainer benignCopyEnv flatMembers "/app/proj/bom.json"
      ["dest", "bom.json"] emptyFS).tempDeleted = true :=
  C8_temp_archive_never_leaked benignCopyEnv flatMembers "/app/proj/bom.json"
    ["dest", "bom.json"] emptyFS rfl

/-- C9 counterexample: two different creation times falling in the same
whole second (5.1s and 5.9s, in milliseconds) produce the same container
name, refuting "different creation times give different names". -/
theorem C9_counterexample :
    containerName "Java" "chat" 5100 = containerName "Java" "chat" 5900 ∧
    (5100 : Nat) ≠ 5900 := ⟨rfl, by decide⟩

/-- C9 (amended): two sessions for the same project whose creation times
differ in their whole-second timestamps (the value `int(time.time())`
embeds in the name) always get different container names. -/
theorem C9_distinct_seconds_distinct_names (projectLang projectName : String) (t1 t2 : Nat)
    (hne : t1 / 1000 ≠ t2 / 1000) :
    containerName projectLang projectName t1 ≠ containerName projectLang projectName t2 := by
  intro heq
  apply hne
  have hs : Nat.repr (t1 / 1000) = Nat.repr (t2 / 1000) :=
    string_append_cancel_left _ _ _ heq
  exact natRepr_injective _ _ hs

/-- C9 witness: creation times one whole second apart give different
names. -/
theorem C9_distinct_seconds_distinct_names_witness :
    containerName "Java" "chat" 1000 ≠ containerName "Java" "chat" 2000 :=
  C9_distinct_seconds_distinct_names "Java" "chat" 1000 2000 (by decide)

/-- C10: every exec result is either a synthetic failure - exit code
exactly `-1` with empty stdout and no completed remote call - or a genuine
remote result whose exit code is the non-negative code reported by the
runtime; `-1` therefore never collides with a genuine command result. -/
theorem C10_synthetic_failures_carry_minus_one (env : ExecEnv) (cmd : ContainerCmd) :
    ((execInContainer env cmd).1.exitCode = -1 ∧ (execInContainer env cmd).1.stdout = ""
        ∧ (execInContainer env cmd).2 = none)
    ∨ ((execInContainer env cmd).1.exitCode = (env.rawExitCode : Int)
        ∧ 0 ≤ (execInContainer env cmd).1.exitCode
        ∧ (execInContainer env cmd).2 = some (cmdToExec cmd)) := by
  obtain ⟨hc, rn, ra, re, se, ee, ec, so, sf⟩ := env
  cases hc <;> cases rn <;> cases ra <;> cases re <;> cases se <;> cases ee <;>
    simp [execInContainer, execRunStep, Int.natCast_nonneg]
